import Mathlib

/-
  A shallow embedding of the property-resolution engine of conjugate.ts.

  The runtime data model: JavaScript objects are finite association lists of
  writable data properties together with an optional prototype link, living in
  a heap indexed by object ids.  Property keys are strings or symbols; a third
  constructor stands for any other runtime value used as a key, which the
  JavaScript property primitives coerce to its string form (ToPropertyKey).
  Functions are modelled as values that, when invoked, read one property off
  their `this` context; Function.prototype.bind is modelled by attaching that
  context to the value.  Accessor properties do not occur in the embedding, so
  the receiver argument of Reflect.get is inert; Reflect.set, however, applies
  its write on the receiver (OrdinarySet for writable data properties), and
  through the proxy — whose handler defines no defineProperty trap — that
  write is forwarded to the proxy target.

  Variant 1 (first file of src/src/conjugate.ts): the Conjugated proxy traps
  has / get / set / ownKeys over a base instance, the mixin instances and the
  component classes' prototypes, built from the helpers of ConjugateBase
  (src/src/base.ts): ConjugateBase.has/get/set are Reflect.has/get/set,
  ConjugateBase.bounded rebinds callables, ConjugateBase.ownKeys is
  Reflect.ownKeys.

  Variant 2 (second file of src/src/conjugate.ts): the resolveProperty helper,
  which validates the key, the receiver and the value before walking
  self, then the instances in reverse order, then the prototypes in order.
-/

abbrev ObjId := Nat

/-- Property keys: strings, symbols, or any other runtime value used as a key
(conjugate.ts checks `typeof prop` against 'string' and 'symbol'). -/
inductive PropKey where
  | str (s : String)
  | sym (n : Nat)
  | other (n : Int)
deriving DecidableEq

/-- Valid property identifiers, mirroring the check
`typeof prop !== 'string' && typeof prop !== 'symbol'` of resolveProperty. -/
def isValidKey : PropKey → Bool
  | .str _ => true
  | .sym _ => true
  | .other _ => false

/-- ToPropertyKey: the coercion JavaScript applies inside hasOwnProperty,
Reflect.has, Reflect.get and Reflect.set; a non-string non-symbol key is
coerced to its string form. -/
def keyCoerce : PropKey → PropKey
  | .other n => .str (toString n)
  | k => k

/-- The `this` context a callable can be bound to: the proxy receiver of the
composite under consideration, or a plain heap object. -/
inductive BoundThis where
  | recv
  | obj (id : ObjId)
deriving DecidableEq

/-- Runtime values.  A function value carries an identity tag, the property
key its body reads off `this`, and the context it has been bound to (none for
an unbound function). -/
inductive JsValue where
  | undefined
  | nullv
  | bool (b : Bool)
  | num (n : Int)
  | str (s : String)
  | obj (id : ObjId)
  | fn (fid : Nat) (reads : PropKey) (bound : Option BoundThis)
deriving DecidableEq

/-- The `typeof value === 'function'` test of ConjugateBase.bounded. -/
def isFunction : JsValue → Bool
  | .fn _ _ _ => true
  | _ => false

/-- A JavaScript object: its own data properties in insertion order and its
prototype link. -/
structure JsObj where
  props : List (PropKey × JsValue)
  proto : Option ObjId
deriving DecidableEq

/-- The object heap. -/
structure JsHeap where
  objs : List (ObjId × JsObj)
deriving DecidableEq

/-- First value associated with a given object id. -/
def findEntry (oid : ObjId) : List (ObjId × JsObj) → Option JsObj
  | [] => none
  | p :: l => if p.1 == oid then some p.2 else findEntry oid l

/-- First value associated with a given property key. -/
def findProp (k : PropKey) : List (PropKey × JsValue) → Option JsValue
  | [] => none
  | p :: l => if p.1 == k then some p.2 else findProp k l

/-- Look an object up in the heap. -/
def lookupObj (h : JsHeap) (oid : ObjId) : Option JsObj :=
  findEntry oid h.objs

/-- Look a key up among an object's own properties (the key is expected to be
already coerced). -/
def getOwnObj (o : JsObj) (k : PropKey) : Option JsValue :=
  findProp k o.props

/-- Own-property lookup on the heap, coercing the key as every JavaScript
property primitive does. -/
def getOwnH (h : JsHeap) (oid : ObjId) (k : PropKey) : Option JsValue :=
  (lookupObj h oid).bind (fun o => getOwnObj o (keyCoerce k))

/-- Object.prototype.hasOwnProperty, as called on the instances by the traps. -/
def hasOwnProperty (h : JsHeap) (oid : ObjId) (k : PropKey) : Bool :=
  (getOwnH h oid k).isSome

/-- Write a data property into a property list: an existing property keeps its
slot, a new one is appended (JavaScript insertion order). -/
def setProps (props : List (PropKey × JsValue)) (k : PropKey) (v : JsValue) :
    List (PropKey × JsValue) :=
  if props.any (fun p => p.1 == k) then
    props.map (fun p => if p.1 == k then (p.1, v) else p)
  else
    props ++ [(k, v)]

/-- Replace one object of the heap by a rewritten copy. -/
def updateObj (h : JsHeap) (oid : ObjId) (f : JsObj → JsObj) : JsHeap :=
  ⟨h.objs.map (fun p => if p.1 == oid then (p.1, f p.2) else p)⟩

/-- The `delete obj[k]` operator (used by the repository's dynamic-prototype
tests to remove a method from a class prototype at runtime). -/
def deleteProperty (h : JsHeap) (oid : ObjId) (k : PropKey) : JsHeap :=
  updateObj h oid (fun o => ⟨o.props.filter (fun p => !(p.1 == keyCoerce k)), o.proto⟩)

/-- Prototype-chain lookup with fuel (heap size bounds the length of any
acyclic prototype chain): own properties first, then the prototype link. -/
def protoLookupAux (h : JsHeap) : Nat → ObjId → PropKey → Option JsValue
  | 0, _, _ => none
  | fuel+1, oid, k =>
    match lookupObj h oid with
    | none => none
    | some o =>
      match getOwnObj o k with
      | some v => some v
      | none =>
        match o.proto with
        | none => none
        | some p => protoLookupAux h fuel p k

namespace ConjugateBase

/-- ConjugateBase.has: Reflect.has, which walks the target's entire prototype
chain (src/src/base.ts). -/
def has (h : JsHeap) (target : ObjId) (key : PropKey) : Bool :=
  (protoLookupAux h h.objs.length target (keyCoerce key)).isSome

/-- ConjugateBase.get: Reflect.get.  The receiver argument only matters for
accessor properties, which the data-property model excludes, so it is inert
here; an absent property yields undefined. -/
def get (h : JsHeap) (target : ObjId) (key : PropKey) (receiver : BoundThis) : JsValue :=
  let _ := receiver
  (protoLookupAux h h.objs.length target (keyCoerce key)).getD .undefined

/-- ConjugateBase.set: Reflect.set restricted to writable data properties.
Per OrdinarySet, when the property resolved on the target is a writable data
property (or absent), the write is applied on the receiver, not on the
target: Receiver.[[GetOwnProperty]] followed by [[DefineOwnProperty]] or
CreateDataProperty on the receiver.  The traps call this with the proxy as
receiver, and the proxy's handler defines neither a getOwnPropertyDescriptor
nor a defineProperty trap, so both forward to the proxy target.  The receiver
argument here is therefore the object on which the write lands: the proxy
target for trap calls, the target itself for a direct assignment.  The
operation reports true; the function returns the updated heap. -/
def set (h : JsHeap) (target : ObjId) (key : PropKey) (value : JsValue)
    (receiver : ObjId) : JsHeap :=
  let _ := target
  updateObj h receiver (fun o => ⟨setProps o.props (keyCoerce key) value, o.proto⟩)

/-- ConjugateBase.ownKeys: Reflect.ownKeys, the target's own property keys in
insertion order. -/
def ownKeys (h : JsHeap) (target : ObjId) : List PropKey :=
  match lookupObj h target with
  | none => []
  | some o => o.props.map (·.1)

/-- ConjugateBase.bounded: a callable is rebound to the instance via
Function.prototype.bind (binding an already-bound function keeps its original
context, as bind does); any other value passes through unchanged. -/
def bounded (value : JsValue) (instance' : BoundThis) : JsValue :=
  match value with
  | .fn fid reads none => .fn fid reads (some instance')
  | v => v

end ConjugateBase

/-- First element of a list satisfying a boolean predicate: the shape of the
short-circuiting for-loops in the traps. -/
def firstHit (p : α → Bool) : List α → Option α
  | [] => none
  | a :: l => if p a then some a else firstHit p l

/-- Accumulate keys into a JavaScript Set: a key already present is skipped,
a new key is appended, preserving insertion order. -/
def dedupAppend (acc : List PropKey) (ks : List PropKey) : List PropKey :=
  ks.foldl (fun a k => if k ∈ a then a else a ++ [k]) acc

/-- The closure state of one Conjugated instance of the first variant: the
proxy target `self`, the mixin instances in supplied order, the base instance,
and the prototypes of the Base class and of the Mixin classes. -/
structure Composite where
  selfId : ObjId
  mixinIds : List ObjId
  baseId : ObjId
  baseProtoId : ObjId
  mixinProtoIds : List ObjId
deriving DecidableEq

namespace Conjugated

/-- The has trap of the first variant (src/src/conjugate.ts lines 56-70):
self's own properties, then the mixin instances in reverse supplied order,
then the base instance, then Base.prototype, then the mixin prototypes in
supplied order, short-circuiting on the first hit.  The instances are always
non-null objects (Reflect.construct returns objects), so the
`typeof mixin === 'object' && mixin !== null` guards of the source are
identically true here. -/
def has (h : JsHeap) (c : Composite) (prop : PropKey) : Bool :=
  hasOwnProperty h c.selfId prop
  || c.mixinIds.reverse.any (fun m => hasOwnProperty h m prop)
  || hasOwnProperty h c.baseId prop
  || ConjugateBase.has h c.baseProtoId prop
  || c.mixinProtoIds.any (fun p => ConjugateBase.has h p prop)

/-- The get trap of the first variant (src/src/conjugate.ts lines 71-101):
the same walk as the has trap; the first source owning the key supplies the
value, which is rebound to the receiver (the proxy, `.recv`) by
ConjugateBase.bounded; an unresolved read yields undefined. -/
def get (h : JsHeap) (c : Composite) (prop : PropKey) : JsValue :=
  if hasOwnProperty h c.selfId prop then
    ConjugateBase.bounded (ConjugateBase.get h c.selfId prop .recv) .recv
  else
    match firstHit (fun m => hasOwnProperty h m prop) c.mixinIds.reverse with
    | some mixin => ConjugateBase.bounded (ConjugateBase.get h mixin prop .recv) .recv
    | none =>
      if hasOwnProperty h c.baseId prop then
        ConjugateBase.bounded (ConjugateBase.get h c.baseId prop .recv) .recv
      else if ConjugateBase.has h c.baseProtoId prop then
        ConjugateBase.bounded (ConjugateBase.get h c.baseProtoId prop .recv) .recv
      else
        match firstHit (fun p => ConjugateBase.has h p prop) c.mixinProtoIds with
        | some pr => ConjugateBase.bounded (ConjugateBase.get h pr prop .recv) .recv
        | none => .undefined

/-- The set trap of the first variant (src/src/conjugate.ts lines 102-125):
self, then the mixin instances in reverse order, then the base instance are
walked to locate an existing owner; the prototypes are never consulted, and
with no owner the design comment of the source chooses "allow it to be set
on the target object".  Every branch calls ConjugateBase.set with the proxy
as receiver, and the proxy's default property definition forwards to the
proxy target, so by the Reflect.set receiver semantics the new value is in
every case created or updated on the composite's own storage (the proxy
target), whichever owner the walk located.  The trap's boolean result is
always true for writable data properties; the function returns the updated
heap. -/
def set (h : JsHeap) (c : Composite) (prop : PropKey) (value : JsValue) : JsHeap :=
  if hasOwnProperty h c.selfId prop then
    ConjugateBase.set h c.selfId prop value c.selfId
  else
    match firstHit (fun m => hasOwnProperty h m prop) c.mixinIds.reverse with
    | some mixin => ConjugateBase.set h mixin prop value c.selfId
    | none =>
      if hasOwnProperty h c.baseId prop then
        ConjugateBase.set h c.baseId prop value c.selfId
      else
        ConjugateBase.set h c.selfId prop value c.selfId

/-- The ownKeys trap of the first variant (src/src/conjugate.ts lines
126-134): a Set accumulates self's own keys, then each mixin instance's (loop
running from the last mixin to the first), then the base instance's;
Array.from returns them in insertion order. -/
def ownKeys (h : JsHeap) (c : Composite) : List PropKey :=
  let keys0 := dedupAppend [] (ConjugateBase.ownKeys h c.selfId)
  let keys1 := c.mixinIds.reverse.foldl
    (fun acc m => dedupAppend acc (ConjugateBase.ownKeys h m)) keys0
  dedupAppend keys1 (ConjugateBase.ownKeys h c.baseId)

end Conjugated

/-- Invoke a callable obtained through the composite: the body returns
`this[reads]`.  A function bound to the proxy receiver resolves that read
through the get trap; a function bound to a plain object resolves it by
ordinary member access on that object (its own properties, then its prototype
chain).  Calling an unbound function leaves `this` undefined. -/
def invoke (h : JsHeap) (c : Composite) (v : JsValue) : JsValue :=
  match v with
  | .fn _ reads (some .recv) => Conjugated.get h c reads
  | .fn _ reads (some (.obj oid)) => ConjugateBase.get h oid reads .recv
  | _ => .undefined

/-- The closure state of one Conjugated instance of the second variant: the
proxy target `self`, one instance per supplied class (in order), and the
supplied classes' prototypes (in order). -/
structure Composite2 where
  selfId : ObjId
  instances : List ObjId
  protoIds : List ObjId
deriving DecidableEq

/-- The operation selector of resolveProperty (OpType in src/src/typing.ts). -/
inductive OpType where
  | has
  | get
  | set
deriving DecidableEq

/-- The result of resolveProperty: a presence bit for has, a value for get,
and the boolean result together with the updated heap for set. -/
inductive ResolveResult where
  | hasR (b : Bool)
  | getR (v : JsValue)
  | setR (ok : Bool) (h : JsHeap)
deriving DecidableEq

/-- The object on which a Reflect.set write through a given receiver lands:
the proxy receiver forwards its property definition to the proxy target (the
composite's own storage), while a plain-object receiver receives the write
itself. -/
def receiverObj (selfId : ObjId) : BoundThis → ObjId
  | .recv => selfId
  | .obj oid => oid

/-- The resolveProperty helper of the second variant (src/src/conjugate.ts
lines 195-305).  Validation comes first, before any resolution walk: the key
must be a string or a symbol, get and set require a receiver, and set
requires a value that is not undefined.  The walk is then: self's own
properties; the instances in reverse supplied order; the prototypes in
forward supplied order (whose switch has no Set case, so a write never
targets a prototype and an unowned key falls through to self).  A value found
on a prototype is rebound to the corresponding instance (`instances[i]`),
every other resolved value to the receiver.  Each set branch passes the
receiver (the proxy, for trap calls) to ConjugateBase.set, so by the
Reflect.set receiver semantics the write lands on the object that receiver
forwards to — the proxy target — whichever owner the walk located. -/
def resolveProperty (h : JsHeap) (c : Composite2) (op : OpType) (prop : PropKey)
    (receiver : Option BoundThis) (value : JsValue) : Except String ResolveResult :=
  if !(isValidKey prop) then
    .error "Property key must be a string or symbol."
  else if (op == .get || op == .set) && receiver.isNone then
    .error "Receiver must be provided for get/set operation."
  else if op == .set && value == .undefined then
    .error "Value must be provided for set operation."
  else
    let rcv := receiver.getD .recv
    if hasOwnProperty h c.selfId prop then
      match op with
      | .has => .ok (.hasR true)
      | .get => .ok (.getR (ConjugateBase.bounded (ConjugateBase.get h c.selfId prop rcv) rcv))
      | .set =>
        .ok (.setR true (ConjugateBase.set h c.selfId prop value (receiverObj c.selfId rcv)))
    else
      match firstHit (fun i => hasOwnProperty h i prop) c.instances.reverse with
      | some inst =>
        match op with
        | .has => .ok (.hasR true)
        | .get => .ok (.getR (ConjugateBase.bounded (ConjugateBase.get h inst prop rcv) rcv))
        | .set =>
          .ok (.setR true (ConjugateBase.set h inst prop value (receiverObj c.selfId rcv)))
      | none =>
        match op with
        | .set =>
          .ok (.setR true (ConjugateBase.set h c.selfId prop value (receiverObj c.selfId rcv)))
        | .has =>
          match firstHit (fun pr => ConjugateBase.has h pr.1 prop) (c.protoIds.zip c.instances) with
          | some _ => .ok (.hasR true)
          | none => .ok (.hasR false)
        | .get =>
          match firstHit (fun pr => ConjugateBase.has h pr.1 prop) (c.protoIds.zip c.instances) with
          | some pr =>
            .ok (.getR (ConjugateBase.bounded (ConjugateBase.get h pr.1 prop rcv) (.obj pr.2)))
          | none => .ok (.getR .undefined)

/-- One lookup source of the Resolution Order as the specification words it:
the composite's own storage, one auxiliary instance, the primary instance,
the primary class's prototype, or one auxiliary class's prototype. -/
inductive LookupSource where
  | selfS
  | mixinS (id : ObjId)
  | baseS
  | baseProtoS
  | mixinProtoS (id : ObjId)
deriving DecidableEq

/-- The specification's fixed total order over lookup sources: own instance
storage, auxiliary instances in reverse supplied order, primary instance
storage, the primary class's prototype, the auxiliary classes' prototypes in
forward supplied order. -/
def sourceList (c : Composite) : List LookupSource :=
  [.selfS] ++ c.mixinIds.reverse.map .mixinS
    ++ [.baseS, .baseProtoS] ++ c.mixinProtoIds.map .mixinProtoS

/-- Presence of a key on one lookup source: own-property presence for the
instance-level sources, full prototype-chain presence for the prototype
sources. -/
def sourcePresent (h : JsHeap) (c : Composite) (k : PropKey) : LookupSource → Bool
  | .selfS => hasOwnProperty h c.selfId k
  | .mixinS m => hasOwnProperty h m k
  | .baseS => hasOwnProperty h c.baseId k
  | .baseProtoS => ConjugateBase.has h c.baseProtoId k
  | .mixinProtoS p => ConjugateBase.has h p k

/-- The heap object a lookup source reads from or writes to. -/
def sourceObjId (c : Composite) : LookupSource → ObjId
  | .selfS => c.selfId
  | .mixinS m => m
  | .baseS => c.baseId
  | .baseProtoS => c.baseProtoId
  | .mixinProtoS p => p

/-- The first source of the specification's total order on which the key is
present. -/
def firstSource (h : JsHeap) (c : Composite) (k : PropKey) : Option LookupSource :=
  firstHit (sourcePresent h c k) (sourceList c)

/-- The instance-level prefix of the order: own storage, auxiliary instances
in reverse supplied order, primary instance storage. -/
def instanceSourceList (c : Composite) : List LookupSource :=
  [.selfS] ++ c.mixinIds.reverse.map .mixinS ++ [.baseS]

/-- The first instance-level source owning the key. -/
def firstInstanceOwner (h : JsHeap) (c : Composite) (k : PropKey) : Option LookupSource :=
  firstHit (sourcePresent h c k) (instanceSourceList c)

/-- Concrete heap for the primary/auxiliary field scenario: object 0 is the
proxy target (no own fields), object 1 an instance with own x = 1, object 2
an instance with own x = 2, objects 3 and 4 empty class prototypes. -/
def heapPA : JsHeap :=
  ⟨[(0, ⟨[], none⟩),
    (1, ⟨[(.str "x", .num 1)], some 3⟩),
    (2, ⟨[(.str "x", .num 2)], some 4⟩),
    (3, ⟨[], none⟩),
    (4, ⟨[], none⟩)]⟩

/-- The composite compose(Primary, [Aux]): base instance 1 (x = 1), sole
mixin instance 2 (x = 2). -/
def compPA : Composite := ⟨0, [2], 1, 3, [4]⟩

/-- The composite with the roles swapped, compose(Aux, [Primary]). -/
def compAP : Composite := ⟨0, [1], 2, 4, [3]⟩

/-- Concrete heap for the prototype-only write scenario: the key "p" is
present only on the base class's prototype (object 3). -/
def heapPW : JsHeap :=
  ⟨[(0, ⟨[], none⟩),
    (1, ⟨[], some 3⟩),
    (2, ⟨[], some 4⟩),
    (3, ⟨[(.str "p", .num 7)], none⟩),
    (4, ⟨[], none⟩)]⟩

/-- The composite for the prototype-only write scenario. -/
def compPW : Composite := ⟨0, [2], 1, 3, [4]⟩

/-- Concrete heap for the method-binding scenario: auxiliary instance 2 owns
the method m (an unbound function reading "d") and the field d = 1, the
later-listed auxiliary instance 3 owns d = 2. -/
def heapMB : JsHeap :=
  ⟨[(0, ⟨[], none⟩),
    (1, ⟨[], some 4⟩),
    (2, ⟨[(.str "m", .fn 1 (.str "d") none), (.str "d", .num 1)], some 5⟩),
    (3, ⟨[(.str "d", .num 2)], some 6⟩),
    (4, ⟨[], none⟩),
    (5, ⟨[], none⟩),
    (6, ⟨[], none⟩)]⟩

/-- The composite for the method-binding scenario: base instance 1, auxiliary
instances 2 and 3 in supplied order. -/
def compMB : Composite := ⟨0, [2, 3], 1, 4, [5, 6]⟩

/-- Concrete heap for the unresolved-write scenario: no source owns "z"; the
base instance (object 1, the primary instance) owns only "a". -/
def heapUW : JsHeap :=
  ⟨[(0, ⟨[], none⟩),
    (1, ⟨[(.str "a", .num 1)], some 3⟩),
    (2, ⟨[(.str "b", .num 2)], some 4⟩),
    (3, ⟨[], none⟩),
    (4, ⟨[], none⟩)]⟩

/-- The composite for the unresolved-write scenario. -/
def compUW : Composite := ⟨0, [2], 1, 3, [4]⟩

/-- Concrete heap for the dynamic-prototype scenario: both class prototypes
(objects 3 and 4) define the method "m", with distinct implementations. -/
def heapDP : JsHeap :=
  ⟨[(0, ⟨[], none⟩),
    (1, ⟨[], some 3⟩),
    (2, ⟨[], some 4⟩),
    (3, ⟨[(.str "m", .fn 1 (.str "q") none)], none⟩),
    (4, ⟨[(.str "m", .fn 2 (.str "q") none)], none⟩)]⟩

/-- The composite for the dynamic-prototype scenario: the first-listed class
is the base (prototype 3), the second the sole mixin (prototype 4). -/
def compDP : Composite := ⟨0, [2], 1, 3, [4]⟩

/-- Concrete heap for the malformed-key scenario: the base instance owns the
string key "5". -/
def heapMK : JsHeap :=
  ⟨[(0, ⟨[], none⟩),
    (1, ⟨[(.str "5", .num 1)], some 2⟩),
    (2, ⟨[], none⟩)]⟩

/-- The composite for the malformed-key scenario (no mixins). -/
def compMK : Composite := ⟨0, [], 1, 2, []⟩

/-- Concrete heap for the enumeration scenario: the base instance (first
class) owns fields a and b, the mixin instance (second class) owns b and c. -/
def heapEN : JsHeap :=
  ⟨[(0, ⟨[], none⟩),
    (1, ⟨[(.str "a", .num 1), (.str "b", .num 2)], some 3⟩),
    (2, ⟨[(.str "b", .num 3), (.str "c", .num 4)], some 4⟩),
    (3, ⟨[(.str "protoOnly", .num 9)], none⟩),
    (4, ⟨[], none⟩)]⟩

/-- The composite for the enumeration scenario. -/
def compEN : Composite := ⟨0, [2], 1, 3, [4]⟩

/-- Concrete heap for the round-trip scenario: the sole mixin instance owns
the field "x". -/
def heapRT : JsHeap :=
  ⟨[(0, ⟨[], none⟩),
    (1, ⟨[], some 3⟩),
    (2, ⟨[(.str "x", .num 1)], some 4⟩),
    (3, ⟨[], none⟩),
    (4, ⟨[], none⟩),
    (77, ⟨[], none⟩)]⟩

/-- The composite for the round-trip scenario. -/
def compRT : Composite := ⟨0, [2], 1, 3, [4]⟩

/-- Concrete heap for the inherited-member scenario: the base class's
prototype (object 3) does not own "g", but its own prototype (object 5,
playing the role of EventTarget.prototype) does. -/
def heapIH : JsHeap :=
  ⟨[(0, ⟨[], none⟩),
    (1, ⟨[], some 3⟩),
    (2, ⟨[], some 4⟩),
    (3, ⟨[], some 5⟩),
    (4, ⟨[], none⟩),
    (5, ⟨[(.str "g", .fn 9 (.str "q") none)], none⟩)]⟩

/-- The composite for the inherited-member scenario. -/
def compIH : Composite := ⟨0, [2], 1, 3, [4]⟩

/-- Concrete heap for the resolveProperty scenarios of the second variant. -/
def heapRP : JsHeap :=
  ⟨[(0, ⟨[], none⟩),
    (1, ⟨[(.str "x", .num 1)], some 2⟩),
    (2, ⟨[], none⟩)]⟩

/-- A composite of the second variant: one instance (object 1) and its
class's prototype (object 2). -/
def compRP : Composite2 := ⟨0, [1], [2]⟩

theorem firstHit_isSome_any (p : α → Bool) (l : List α) :
    (firstHit p l).isSome = l.any p := by
  induction l with
  | nil => rfl
  | cons a l ih => by_cases hp : p a <;> simp [firstHit, hp, ih]

theorem firstHit_eq_none_iff (p : α → Bool) (l : List α) :
    firstHit p l = none ↔ ∀ x ∈ l, p x = false := by
  induction l with
  | nil => simp [firstHit]
  | cons a l ih => by_cases hp : p a <;> simp [firstHit, hp, ih]

theorem firstHit_mem (p : α → Bool) {l : List α} {a : α}
    (h : firstHit p l = some a) : p a = true ∧ a ∈ l := by
  induction l with
  | nil => simp [firstHit] at h
  | cons b l ih =>
    by_cases hp : p b
    · simp [firstHit, hp] at h
      subst h
      exact ⟨hp, List.mem_cons_self _ _⟩
    · simp [firstHit, hp] at h
      rcases ih h with ⟨h1, h2⟩
      exact ⟨h1, List.mem_cons_of_mem _ h2⟩

theorem firstHit_eq_some_decomp (p : α → Bool) {l : List α} {a : α}
    (h : firstHit p l = some a) :
    ∃ l1 l2, l = l1 ++ a :: l2 ∧ (∀ x ∈ l1, p x = false) ∧ p a = true := by
  induction l with
  | nil => simp [firstHit] at h
  | cons b l ih =>
    by_cases hp : p b
    · simp [firstHit, hp] at h
      subst h
      exact ⟨[], l, rfl, by simp, hp⟩
    · simp [firstHit, hp] at h
      rcases ih h with ⟨l1, l2, rfl, hall, ha⟩
      refine ⟨b :: l1, l2, rfl, ?_, ha⟩
      intro x hx
      rcases List.mem_cons.mp hx with rfl | hx
      · simpa using hp
      · exact hall x hx

theorem firstHit_of_decomp (p : α → Bool) (l1 l2 : List α) (a : α)
    (hall : ∀ x ∈ l1, p x = false) (ha : p a = true) :
    firstHit p (l1 ++ a :: l2) = some a := by
  induction l1 with
  | nil => simp [firstHit, ha]
  | cons b l ih =>
    have hb := hall b (by simp)
    simp only [List.cons_append, firstHit, hb]
    simp only [Bool.false_eq_true, if_false]
    exact ih (fun x hx => hall x (by simp [hx]))

theorem firstHit_append (p : α → Bool) (l1 l2 : List α) :
    firstHit p (l1 ++ l2) =
      match firstHit p l1 with
      | some a => some a
      | none => firstHit p l2 := by
  induction l1 with
  | nil => simp [firstHit]
  | cons a l ih => by_cases hp : p a <;> simp [firstHit, hp, ih]

theorem firstHit_map (p : β → Bool) (f : α → β) (l : List α) :
    firstHit p (l.map f) = (firstHit (fun x => p (f x)) l).map f := by
  induction l with
  | nil => rfl
  | cons a l ih => by_cases hp : p (f a) <;> simp [firstHit, hp, ih]

theorem mem_dedupAppend (acc ks : List PropKey) (a : PropKey) :
    a ∈ dedupAppend acc ks ↔ a ∈ acc ∨ a ∈ ks := by
  induction ks generalizing acc with
  | nil => simp [dedupAppend]
  | cons k ks ih =>
    show a ∈ dedupAppend (if k ∈ acc then acc else acc ++ [k]) ks ↔ _
    by_cases hk : k ∈ acc
    · rw [if_pos hk, ih]
      constructor
      · rintro (h | h)
        · exact Or.inl h
        · exact Or.inr (List.mem_cons_of_mem _ h)
      · rintro (h | h)
        · exact Or.inl h
        · rcases List.mem_cons.mp h with rfl | h
          · exact Or.inl hk
          · exact Or.inr h
    · rw [if_neg hk, ih]
      simp [List.mem_append, or_assoc, List.mem_cons]

theorem nodup_dedupAppend (acc ks : List PropKey) (h : acc.Nodup) :
    (dedupAppend acc ks).Nodup := by
  induction ks generalizing acc with
  | nil => exact h
  | cons k ks ih =>
    show (dedupAppend (if k ∈ acc then acc else acc ++ [k]) ks).Nodup
    by_cases hk : k ∈ acc
    · rw [if_pos hk]; exact ih acc h
    · rw [if_neg hk]
      exact ih _ (by simp [List.nodup_append, h, hk])

theorem mem_foldl_dedup (g : ObjId → List PropKey) (L : List ObjId)
    (acc : List PropKey) (a : PropKey) :
    a ∈ L.foldl (fun ac m => dedupAppend ac (g m)) acc ↔ a ∈ acc ∨ ∃ m ∈ L, a ∈ g m := by
  induction L generalizing acc with
  | nil => simp
  | cons x L ih =>
    simp only [List.foldl_cons, ih, mem_dedupAppend, List.mem_cons]
    constructor
    · rintro ((h | h) | ⟨m, hm, ha⟩)
      · exact Or.inl h
      · exact Or.inr ⟨x, Or.inl rfl, h⟩
      · exact Or.inr ⟨m, Or.inr hm, ha⟩
    · rintro (h | ⟨m, rfl | hm, ha⟩)
      · exact Or.inl (Or.inl h)
      · exact Or.inl (Or.inr ha)
      · exact Or.inr ⟨m, hm, ha⟩

theorem nodup_foldl_dedup (g : ObjId → List PropKey) (L : List ObjId)
    (acc : List PropKey) (h : acc.Nodup) :
    (L.foldl (fun ac m => dedupAppend ac (g m)) acc).Nodup := by
  induction L generalizing acc with
  | nil => exact h
  | cons x L ih => exact ih _ (nodup_dedupAppend _ _ h)

theorem findEntry_map_keyed (l : List (ObjId × JsObj)) (t oid : ObjId) (f : JsObj → JsObj) :
    findEntry oid (l.map (fun p => if p.1 == t then (p.1, f p.2) else p))
      = if oid = t then (findEntry oid l).map f else findEntry oid l := by
  induction l with
  | nil => by_cases h : oid = t <;> simp [findEntry, h]
  | cons p l ih =>
    obtain ⟨a, o⟩ := p
    simp only [List.map_cons, findEntry]
    rw [ih]
    by_cases hat : a = t <;> by_cases hao : a = oid
    · subst hat; subst hao; simp
    · subst hat
      simp [hao, Ne.symm hao]
    · subst hao
      simp [hat]
    · simp [hat, hao]

theorem lookupObj_updateObj (h : JsHeap) (t : ObjId) (f : JsObj → JsObj) (oid : ObjId) :
    lookupObj (updateObj h t f) oid =
      if oid = t then (lookupObj h t).map f else lookupObj h oid := by
  obtain ⟨l⟩ := h
  simp only [lookupObj, updateObj]
  rw [findEntry_map_keyed l t oid f]
  by_cases hot : oid = t
  · subst hot; simp
  · simp [hot]

theorem updateObj_length (h : JsHeap) (t : ObjId) (f : JsObj → JsObj) :
    (updateObj h t f).objs.length = h.objs.length := by
  simp [updateObj]

theorem findProp_setProps_same (props : List (PropKey × JsValue)) (k : PropKey) (v : JsValue) :
    findProp k (setProps props k v) = some v := by
  induction props with
  | nil => simp [setProps, findProp]
  | cons p l ih =>
    obtain ⟨a, w⟩ := p
    by_cases hak : a = k
    · subst hak
      simp [setProps, findProp]
    · have hne : (a == k) = false := by simpa using hak
      cases hl : l.any (fun p => p.1 == k) with
      | true =>
        simp only [setProps, List.any_cons, hne, Bool.false_or, hl, if_true,
          List.map_cons, findProp, Bool.false_eq_true, if_false]
        simpa [setProps, hl] using ih
      | false =>
        simp only [setProps, List.any_cons, hne, Bool.false_or, hl, Bool.false_eq_true,
          if_false, List.cons_append, findProp]
        simpa [setProps, hl] using ih

theorem getOwnH_set_same (h : JsHeap) (t : ObjId) (k : PropKey) (v : JsValue) (r : ObjId)
    (o : JsObj) (hex : lookupObj h r = some o) :
    getOwnH (ConjugateBase.set h t k v r) r k = some v := by
  simp only [ConjugateBase.set, getOwnH, lookupObj_updateObj, if_pos rfl, hex,
    Option.map_some', Option.some_bind]
  simp [getOwnObj, findProp_setProps_same]

theorem getOwnH_updateObj_other (h : JsHeap) (t : ObjId) (f : JsObj → JsObj)
    (oid : ObjId) (k : PropKey) (hne : oid ≠ t) :
    getOwnH (updateObj h t f) oid k = getOwnH h oid k := by
  simp [getOwnH, lookupObj_updateObj, hne]

theorem getOwnH_set_other (h : JsHeap) (t : ObjId) (k' : PropKey) (v : JsValue) (r : ObjId)
    (oid : ObjId) (k : PropKey) (hne : oid ≠ r) :
    getOwnH (ConjugateBase.set h t k' v r) oid k = getOwnH h oid k := by
  simp [ConjugateBase.set, getOwnH_updateObj_other h r _ oid k hne]

theorem hasOwn_delete_other (h : JsHeap) (t : ObjId) (k' : PropKey)
    (oid : ObjId) (k : PropKey) (hne : oid ≠ t) :
    hasOwnProperty (deleteProperty h t k') oid k = hasOwnProperty h oid k := by
  simp [hasOwnProperty, deleteProperty, getOwnH_updateObj_other h t _ oid k hne]

theorem lookupObj_some_of_getOwnH {h : JsHeap} {oid : ObjId} {k : PropKey} {v : JsValue}
    (hg : getOwnH h oid k = some v) :
    ∃ o, lookupObj h oid = some o ∧ getOwnObj o (keyCoerce k) = some v := by
  unfold getOwnH at hg
  cases hl : lookupObj h oid with
  | none => rw [hl] at hg; simp at hg
  | some o => rw [hl] at hg; exact ⟨o, rfl, hg⟩

theorem objs_ne_nil_of_lookup {h : JsHeap} {oid : ObjId} {o : JsObj}
    (hl : lookupObj h oid = some o) : h.objs ≠ [] := by
  intro he
  rw [show lookupObj h oid = findEntry oid h.objs from rfl, he] at hl
  simp [findEntry] at hl

theorem has_of_getOwnH {h : JsHeap} {oid : ObjId} {k : PropKey} {v : JsValue}
    (hg : getOwnH h oid k = some v) :
    ConjugateBase.has h oid k = true := by
  rcases lookupObj_some_of_getOwnH hg with ⟨o, hl, ho⟩
  have hne := objs_ne_nil_of_lookup hl
  unfold ConjugateBase.has
  cases hlen : h.objs.length with
  | zero => exact absurd (List.length_eq_zero.mp hlen) hne
  | succ n => simp [protoLookupAux, hl, getOwnObj] at ho ⊢; simp [ho]

theorem get_of_getOwnH {h : JsHeap} {oid : ObjId} {k : PropKey} {v : JsValue} (r : BoundThis)
    (hg : getOwnH h oid k = some v) :
    ConjugateBase.get h oid k r = v := by
  rcases lookupObj_some_of_getOwnH hg with ⟨o, hl, ho⟩
  have hne := objs_ne_nil_of_lookup hl
  unfold ConjugateBase.get
  cases hlen : h.objs.length with
  | zero => exact absurd (List.length_eq_zero.mp hlen) hne
  | succ n => simp [protoLookupAux, hl, ho]

theorem bounded_of_not_function {v : JsValue} (hv : isFunction v = false) (i : BoundThis) :
    ConjugateBase.bounded v i = v := by
  cases v <;> simp_all [isFunction, ConjugateBase.bounded]

theorem bounded_ne_unbound (v : JsValue) (i : BoundThis) (fid : Nat) (rk : PropKey) :
    ConjugateBase.bounded v i ≠ .fn fid rk none := by
  cases v with
  | fn f r b => cases b <;> simp [ConjugateBase.bounded]
  | _ => simp [ConjugateBase.bounded]

theorem firstSource_unfold (h : JsHeap) (c : Composite) (k : PropKey) :
    firstSource h c k =
      if hasOwnProperty h c.selfId k then some .selfS
      else
        match firstHit (fun m => hasOwnProperty h m k) c.mixinIds.reverse with
        | some m => some (.mixinS m)
        | none =>
          if hasOwnProperty h c.baseId k then some .baseS
          else if ConjugateBase.has h c.baseProtoId k then some .baseProtoS
          else
            match firstHit (fun p => ConjugateBase.has h p k) c.mixinProtoIds with
            | some p => some (.mixinProtoS p)
            | none => none := by
  unfold firstSource sourceList
  by_cases h1 : hasOwnProperty h c.selfId k
  · simp [firstHit, sourcePresent, h1]
  · simp only [List.cons_append, List.append_assoc, List.append_eq, List.nil_append,
      firstHit, sourcePresent, h1, Bool.false_eq_true, if_false, firstHit_append,
      firstHit_map]
    cases hmix : firstHit (fun x => hasOwnProperty h x k) c.mixinIds.reverse with
    | some m => simp
    | none =>
      simp only [Option.map_none']
      by_cases h3 : hasOwnProperty h c.baseId k
      · simp [h3]
      · simp only [h3, Bool.false_eq_true, if_false]
        by_cases h4 : ConjugateBase.has h c.baseProtoId k
        · simp [h4]
        · simp only [h4, Bool.false_eq_true, if_false]
          cases firstHit (fun x => ConjugateBase.has h x k) c.mixinProtoIds <;> simp

theorem firstInstanceOwner_unfold (h : JsHeap) (c : Composite) (k : PropKey) :
    firstInstanceOwner h c k =
      if hasOwnProperty h c.selfId k then some .selfS
      else
        match firstHit (fun m => hasOwnProperty h m k) c.mixinIds.reverse with
        | some m => some (.mixinS m)
        | none =>
          if hasOwnProperty h c.baseId k then some .baseS else none := by
  unfold firstInstanceOwner instanceSourceList
  by_cases h1 : hasOwnProperty h c.selfId k
  · simp [firstHit, sourcePresent, h1]
  · simp only [List.cons_append, List.append_assoc, List.append_eq, List.nil_append,
      firstHit, sourcePresent, h1, Bool.false_eq_true, if_false, firstHit_append,
      firstHit_map]
    cases hmix : firstHit (fun x => hasOwnProperty h x k) c.mixinIds.reverse with
    | some m => simp
    | none => simp

theorem set_trap_writes_self (h : JsHeap) (c : Composite) (k : PropKey) (v : JsValue) :
    Conjugated.set h c k v = ConjugateBase.set h c.selfId k v c.selfId := by
  unfold Conjugated.set
  by_cases h1 : hasOwnProperty h c.selfId k
  · simp [h1]
  · simp only [h1, Bool.false_eq_true, if_false]
    cases hm : firstHit (fun m => hasOwnProperty h m k) c.mixinIds.reverse with
    | some m => rfl
    | none =>
      by_cases h3 : hasOwnProperty h c.baseId k
      · simp [h3]
        rfl
      · simp [h3]

/-- C1 (amended): for every composite and key, the existence check and the
read consult the five lookup sources in the fixed total order — own storage,
auxiliary instances in reverse supplied order, primary instance, primary
class's prototype, auxiliary prototypes in forward supplied order —
short-circuiting at the first source on which the key is present.  The write
walks only the instance-level prefix of that order to locate an existing
owner and never consults the prototypes, and by the Reflect.set receiver
semantics the new value is in every case applied to the composite's own
storage (the proxy target), never to the located owner and never to a
prototype. -/
theorem C1_resolution_order (h : JsHeap) (c : Composite) (k : PropKey) (v : JsValue) :
    Conjugated.has h c k = (firstSource h c k).isSome
    ∧ Conjugated.get h c k =
        (match firstSource h c k with
         | none => .undefined
         | some s => ConjugateBase.bounded (ConjugateBase.get h (sourceObjId c s) k .recv) .recv)
    ∧ Conjugated.set h c k v = ConjugateBase.set h c.selfId k v c.selfId := by
  rw [firstSource_unfold]
  refine ⟨?_, ?_, set_trap_writes_self h c k v⟩
  · by_cases h1 : hasOwnProperty h c.selfId k
    · simp [Conjugated.has, h1]
    · simp only [Conjugated.has, h1, ← firstHit_isSome_any, Bool.false_or,
        Bool.false_eq_true, if_false]
      cases hmix : firstHit (fun m => hasOwnProperty h m k) c.mixinIds.reverse with
      | some m => simp
      | none =>
        simp only [Option.isSome_none, Bool.false_or]
        by_cases h3 : hasOwnProperty h c.baseId k
        · simp [h3]
        · simp only [h3, Bool.false_or, Bool.false_eq_true, if_false]
          by_cases h4 : ConjugateBase.has h c.baseProtoId k
          · simp [h4]
          · simp only [h4, Bool.false_or, Bool.false_eq_true, if_false]
            cases hpr : firstHit (fun p => ConjugateBase.has h p k) c.mixinProtoIds <;> simp
  · by_cases h1 : hasOwnProperty h c.selfId k
    · simp [Conjugated.get, h1, sourceObjId]
    · simp only [Conjugated.get, h1, Bool.false_eq_true, if_false]
      cases hmix : firstHit (fun m => hasOwnProperty h m k) c.mixinIds.reverse with
      | some m => simp [sourceObjId]
      | none =>
        by_cases h3 : hasOwnProperty h c.baseId k
        · simp [h3, sourceObjId]
        · simp only [h3, Bool.false_eq_true, if_false]
          by_cases h4 : ConjugateBase.has h c.baseProtoId k
          · simp [h4, sourceObjId]
          · simp only [h4, Bool.false_eq_true, if_false]
            cases hpr : firstHit (fun p => ConjugateBase.has h p k) c.mixinProtoIds <;>
              simp [sourceObjId]

/-- C1 counterexample: the claim states that the write operation also walks
the full five-source order and short-circuits at the first source on which
the key is present.  In this concrete composite the key "p" is present only
on the primary class's prototype (object 3), so the first present source is
that prototype; yet the write is not applied there — a direct write on the
prototype object would yield a different heap, the prototype keeps its old
value 7, and the new value 9 lands on the composite's own storage (object 0),
a source at which the key was absent. -/
theorem C1_counterexample :
    firstSource heapPW compPW (.str "p") = some .baseProtoS
    ∧ Conjugated.set heapPW compPW (.str "p") (.num 9)
        ≠ ConjugateBase.set heapPW 3 (.str "p") (.num 9) 3
    ∧ getOwnH (Conjugated.set heapPW compPW (.str "p") (.num 9)) 3 (.str "p") = some (.num 7)
    ∧ getOwnH (Conjugated.set heapPW compPW (.str "p") (.num 9)) 0 (.str "p") = some (.num 9) := by
  exact ⟨by decide, by decide, by decide, by decide⟩

/-- C2 counterexample: with Primary's instance (object 1) owning x = 1 and
Aux's instance (object 2) owning x = 2, the composite built with Primary as
the primary class and Aux as the sole auxiliary exposes x = 2, not x = 1 as
the claim states: the resolution order consults the auxiliary instances
before the primary instance's storage. -/
theorem C2_counterexample :
    Conjugated.get heapPA compPA (.str "x") ≠ .num 1
    ∧ Conjugated.get heapPA compPA (.str "x") = .num 2 := by
  exact ⟨by decide, by decide⟩

/-- C2 (amended): with Primary's instance owning x = 1 and Aux's instance
owning x = 2, the composite built as compose(Primary, [Aux]) exposes x = 2
(the auxiliary instance wins over the primary's instance field, since the
Resolution Order consults auxiliary instances before primary storage), while
the composite with the roles swapped, compose(Aux, [Primary]), exposes
x = 1. -/
theorem C2_field_precedence :
    Conjugated.get heapPA compPA (.str "x") = .num 2
    ∧ Conjugated.get heapPA compAP (.str "x") = .num 1 := by
  exact ⟨by decide, by decide⟩

/-- C3 counterexample: auxiliary instance 2 owns the method m (a callable
reading the key "d") and the field d = 1, while the later-listed auxiliary
instance 3 owns d = 2.  Reading m through the composite resolves it on
instance 2 and rebinds it to the receiver (the proxy), so invoking it reads
"d" through the composite's resolution order and yields 2 — not the owning
auxiliary instance's own field value 1 that the claim requires. -/
theorem C3_counterexample :
    Conjugated.get heapMB compMB (.str "m") = .fn 1 (.str "d") (some .recv)
    ∧ invoke heapMB compMB (Conjugated.get heapMB compMB (.str "m")) = .num 2
    ∧ ConjugateBase.get heapMB 2 (.str "d") .recv = .num 1 := by
  exact ⟨by decide, by decide, by decide⟩

/-- C3 (amended): every callable resolved through the composite's read is
rebound before being returned, and it is always rebound to the receiver
passed into the read — for the instance-found branches and the
prototype-found branches alike.  A method found on an auxiliary instance
therefore executes with the composite's full resolution order as its
context, in which the composite's own storage and later-listed auxiliaries
can shadow the owning instance's fields, and a method found on a class
prototype executes with the receiver originally passed into the read. -/
theorem C3_method_binding (h : JsHeap) (c : Composite) (k : PropKey)
    (fid : Nat) (rk : PropKey)
    (h1 : hasOwnProperty h c.selfId k = false)
    (h2 : ∀ m ∈ c.mixinIds, hasOwnProperty h m k = false)
    (h3 : hasOwnProperty h c.baseId k = false)
    (h4 : ConjugateBase.has h c.baseProtoId k = true)
    (h5 : ConjugateBase.get h c.baseProtoId k .recv = .fn fid rk none) :
    Conjugated.get h c k = .fn fid rk (some .recv)
    ∧ ∀ (h' : JsHeap) (c' : Composite) (k' : PropKey) (fid' : Nat) (rk' : PropKey),
        Conjugated.get h' c' k' ≠ .fn fid' rk' none := by
  constructor
  · have hmix : firstHit (fun m => hasOwnProperty h m k) c.mixinIds.reverse = none := by
      rw [firstHit_eq_none_iff]
      intro x hx
      exact h2 x (List.mem_reverse.mp hx)
    simp [Conjugated.get, h1, hmix, h3, h4, h5, ConjugateBase.bounded]
  · intro h' c' k' fid' rk'
    unfold Conjugated.get
    split
    · exact bounded_ne_unbound _ _ _ _
    · split
      · exact bounded_ne_unbound _ _ _ _
      · split
        · exact bounded_ne_unbound _ _ _ _
        · split
          · exact bounded_ne_unbound _ _ _ _
          · split
            · exact bounded_ne_unbound _ _ _ _
            · simp

/-- C3 witness: the amended statement applied to a concrete composite whose
primary prototype carries an unbound method. -/
theorem C3_method_binding_witness :
    Conjugated.get heapDP compDP (.str "m") = .fn 1 (.str "q") (some .recv)
    ∧ ∀ (h' : JsHeap) (c' : Composite) (k' : PropKey) (fid' : Nat) (rk' : PropKey),
        Conjugated.get h' c' k' ≠ .fn fid' rk' none :=
  C3_method_binding heapDP compDP (.str "m") 1 (.str "q")
    (by decide) (by decide) (by decide) (by decide) (by decide)

/-- C4 counterexample: both halves of the claim fail on the code.  The
auxiliary instance (object 2) owns the key "b", yet writing "b" through the
composite leaves that owner's storage untouched at its old value 2 and puts
the new value 9 on the composite's own storage (object 0) — the field does
not keep its owner.  And for the key "z", which no source owns, the write
does not fall to the primary instance's own storage (object 1, which gains
nothing) but again to the composite's own storage. -/
theorem C4_counterexample :
    (firstInstanceOwner heapUW compUW (.str "b") = some (.mixinS 2)
     ∧ getOwnH (Conjugated.set heapUW compUW (.str "b") (.num 9)) 2 (.str "b") = some (.num 2)
     ∧ getOwnH (Conjugated.set heapUW compUW (.str "b") (.num 9)) 0 (.str "b") = some (.num 9))
    ∧ (firstInstanceOwner heapUW compUW (.str "z") = none
     ∧ getOwnH (Conjugated.set heapUW compUW (.str "z") (.num 5)) 1 (.str "z") = none
     ∧ getOwnH (Conjugated.set heapUW compUW (.str "z") (.num 5)) 0 (.str "z") = some (.num 5)) := by
  exact ⟨⟨by decide, by decide, by decide⟩, ⟨by decide, by decide, by decide⟩⟩

/-- C4 (amended): a write through the composite is never an error and never
discarded, but no source keeps ownership of the written field: whether or
not an instance-level source owns the key, the Reflect.set receiver
semantics land the new value on the composite's own storage (the proxy
target).  An existing auxiliary- or primary-instance owner distinct from the
proxy target keeps its old value untouched, and a key with no owner is
likewise created on the composite's own storage — not on the primary
instance. -/
theorem C4_write_owner (h : JsHeap) (c : Composite) (k : PropKey) (v : JsValue) :
    Conjugated.set h c k v = ConjugateBase.set h c.selfId k v c.selfId
    ∧ ∀ s, firstInstanceOwner h c k = some s → sourceObjId c s ≠ c.selfId →
        getOwnH (Conjugated.set h c k v) (sourceObjId c s) k
          = getOwnH h (sourceObjId c s) k := by
  refine ⟨set_trap_writes_self h c k v, ?_⟩
  intro s hs hne
  rw [set_trap_writes_self]
  exact getOwnH_set_other h c.selfId k v c.selfId (sourceObjId c s) k hne

/-- C4 witness: the amended statement applied to the concrete composite
whose auxiliary instance owns "b" — the write lands on the proxy target and
the owning auxiliary's storage is unchanged. -/
theorem C4_write_owner_witness :
    Conjugated.set heapUW compUW (.str "b") (.num 9)
      = ConjugateBase.set heapUW 0 (.str "b") (.num 9) 0
    ∧ getOwnH (Conjugated.set heapUW compUW (.str "b") (.num 9)) 2 (.str "b")
      = getOwnH heapUW 2 (.str "b") :=
  ⟨(C4_write_owner heapUW compUW (.str "b") (.num 9)).1,
   (C4_write_owner heapUW compUW (.str "b") (.num 9)).2 (.mixinS 2) (by decide) (by decide)⟩

theorem getOwnH_delete_other (h : JsHeap) (t : ObjId) (k' : PropKey)
    (oid : ObjId) (k : PropKey) (hne : oid ≠ t) :
    getOwnH (deleteProperty h t k') oid k = getOwnH h oid k := by
  simp [deleteProperty, getOwnH_updateObj_other h t _ oid k hne]

/-- C5 (confirmed): resolution re-walks the live heap on every access, so
prototype mutations after construction are immediately visible through the
same composite.  With both component prototypes defining the method m and the
first-listed component as the primary class, the read resolves to the primary
prototype's implementation; after that member is removed from the primary
prototype at runtime the very same composite resolves to the second
component's implementation; and a member added to a component prototype after
construction is immediately reported present. -/
theorem C5_dynamic_prototypes (h : JsHeap) (c : Composite) (m : PropKey)
    (f1 f2 : JsValue) (p : ObjId)
    (hm : c.mixinProtoIds = [p])
    (h1 : hasOwnProperty h c.selfId m = false)
    (h2 : ∀ x ∈ c.mixinIds, hasOwnProperty h x m = false)
    (h3 : hasOwnProperty h c.baseId m = false)
    (h4 : getOwnH h c.baseProtoId m = some f1)
    (h5 : getOwnH h p m = some f2)
    (hdel : ConjugateBase.has (deleteProperty h c.baseProtoId m) c.baseProtoId m = false)
    (d1 : c.selfId ≠ c.baseProtoId)
    (d2 : ∀ x ∈ c.mixinIds, x ≠ c.baseProtoId)
    (d3 : c.baseId ≠ c.baseProtoId)
    (d4 : p ≠ c.baseProtoId) :
    Conjugated.get h c m = ConjugateBase.bounded f1 .recv
    ∧ Conjugated.get (deleteProperty h c.baseProtoId m) c m = ConjugateBase.bounded f2 .recv
    ∧ ∀ (k : PropKey) (v : JsValue),
        Conjugated.has (ConjugateBase.set h c.baseProtoId k v c.baseProtoId) c k = true := by
  have hmix : firstHit (fun x => hasOwnProperty h x m) c.mixinIds.reverse = none := by
    rw [firstHit_eq_none_iff]
    intro x hx
    exact h2 x (List.mem_reverse.mp hx)
  refine ⟨?_, ?_, ?_⟩
  · have hb := has_of_getOwnH h4
    have hv := get_of_getOwnH (r := .recv) h4
    simp [Conjugated.get, h1, hmix, h3, hb, hv]
  · have e1 : hasOwnProperty (deleteProperty h c.baseProtoId m) c.selfId m = false := by
      rw [hasOwn_delete_other _ _ _ _ _ d1]
      exact h1
    have e2 : firstHit (fun x => hasOwnProperty (deleteProperty h c.baseProtoId m) x m)
        c.mixinIds.reverse = none := by
      rw [firstHit_eq_none_iff]
      intro x hx
      have hx' := List.mem_reverse.mp hx
      rw [hasOwn_delete_other _ _ _ _ _ (d2 x hx')]
      exact h2 x hx'
    have e3 : hasOwnProperty (deleteProperty h c.baseProtoId m) c.baseId m = false := by
      rw [hasOwn_delete_other _ _ _ _ _ d3]
      exact h3
    have e5 : getOwnH (deleteProperty h c.baseProtoId m) p m = some f2 := by
      rw [getOwnH_delete_other _ _ _ _ _ d4]
      exact h5
    have e5h := has_of_getOwnH e5
    have e5v := get_of_getOwnH (r := .recv) e5
    simp [Conjugated.get, e1, e2, e3, hdel, hm, firstHit, e5h, e5v]
  · intro k v
    rcases lookupObj_some_of_getOwnH h4 with ⟨o, hlk, _⟩
    have hset : getOwnH (ConjugateBase.set h c.baseProtoId k v c.baseProtoId) c.baseProtoId k
        = some v :=
      getOwnH_set_same h _ k v _ o hlk
    have hhas := has_of_getOwnH hset
    simp [Conjugated.has, hhas]

/-- C5 witness: the dynamic-prototype statement applied to a concrete
composite whose two prototypes both carry the method "m". -/
theorem C5_dynamic_prototypes_witness :
    Conjugated.get heapDP compDP (.str "m")
      = ConjugateBase.bounded (.fn 1 (.str "q") none) .recv
    ∧ Conjugated.get (deleteProperty heapDP 3 (.str "m")) compDP (.str "m")
      = ConjugateBase.bounded (.fn 2 (.str "q") none) .recv
    ∧ ∀ (k : PropKey) (v : JsValue),
        Conjugated.has (ConjugateBase.set heapDP 3 k v 3) compDP k = true :=
  C5_dynamic_prototypes heapDP compDP (.str "m") (.fn 1 (.str "q") none)
    (.fn 2 (.str "q") none) 4 (by decide) (by decide) (by decide) (by decide)
    (by decide) (by decide) (by decide) (by decide) (by decide) (by decide) (by decide)

/-- C6 counterexample: the claim requires every lookup with a key that is
neither a string nor a symbol to be rejected with an error before any
resolution walk.  The first variant's has trap performs no key validation:
on a composite whose primary instance owns the string key "5", an existence
check with the non-key value 5 is not rejected — the walk runs and the key is
silently coerced to "5", so the check returns true. -/
theorem C6_counterexample : Conjugated.has heapMK compMK (.other 5) = true := by decide

/-- C6 (amended): the resolveProperty-based variant rejects a key that is
neither a string nor a symbol with a descriptive TypeError before any
resolution walk, for all three operations; the first variant's traps perform
no key validation, and such a key is silently coerced to its string form by
the property primitives during the walk, so the lookup behaves exactly like
the lookup of the coerced string key. -/
theorem C6_key_validation :
    (∀ (h : JsHeap) (c2 : Composite2) (op : OpType) (r : Option BoundThis)
        (v : JsValue) (n : Int),
      resolveProperty h c2 op (.other n) r v
        = .error "Property key must be a string or symbol.")
    ∧ (∀ (h : JsHeap) (c : Composite) (n : Int),
      Conjugated.has h c (.other n) = Conjugated.has h c (.str (toString n))) := by
  constructor
  · intro h c2 op r v n
    simp [resolveProperty, isValidKey]
  · intro h c n
    rfl

/-- C7 (confirmed): key enumeration returns the de-duplicated union of the
own keys of the composite's own storage, of each auxiliary instance and of
the primary instance — each key exactly once, prototype-only members
excluded (the prototypes never contribute) — and on the concrete composite
of two components with own fields {a, b} and {b, c} the result is exactly
the key set {a, b, c} with no duplicates. -/
theorem C7_enumeration :
    (∀ (h : JsHeap) (c : Composite),
      (Conjugated.ownKeys h c).Nodup
      ∧ ∀ k, k ∈ Conjugated.ownKeys h c ↔
          (k ∈ ConjugateBase.ownKeys h c.selfId
           ∨ (∃ m ∈ c.mixinIds, k ∈ ConjugateBase.ownKeys h m)
           ∨ k ∈ ConjugateBase.ownKeys h c.baseId))
    ∧ (Conjugated.ownKeys heapEN compEN).Perm [.str "a", .str "b", .str "c"] := by
  constructor
  · intro h c
    constructor
    · exact nodup_dedupAppend _ _
        (nodup_foldl_dedup (fun m => ConjugateBase.ownKeys h m) _ _
          (nodup_dedupAppend _ _ List.nodup_nil))
    · intro k
      simp only [Conjugated.ownKeys, mem_dedupAppend, mem_foldl_dedup, List.mem_reverse,
        List.not_mem_nil, false_or, or_assoc]
  · decide

theorem lookup_of_hasOwn {h : JsHeap} {oid : ObjId} {k : PropKey}
    (hh : hasOwnProperty h oid k = true) : ∃ o, lookupObj h oid = some o := by
  unfold hasOwnProperty getOwnH at hh
  cases hl : lookupObj h oid with
  | none => rw [hl] at hh; simp at hh
  | some o => exact ⟨o, rfl⟩

/-- C8 (confirmed): for a key owned by some instance-level source of the
composite (its own storage, an auxiliary instance, or the primary instance),
writing a non-callable value through the composite and immediately reading
the same key back returns exactly the written value.  By the Reflect.set
receiver semantics the write lands on the composite's own storage (the
proxy target, which every constructed composite has in the heap), and the
subsequent read resolves that source first; since values are references, an
object-valued write reads back as the identical reference — no cloning
occurs. -/
theorem C8_round_trip (h : JsHeap) (c : Composite) (k : PropKey) (v : JsValue)
    (s : LookupSource) (o : JsObj)
    (hv : isFunction v = false)
    (hs : firstInstanceOwner h c k = some s)
    (hself : lookupObj h c.selfId = some o) :
    Conjugated.get (Conjugated.set h c k v) c k = v := by
  rw [set_trap_writes_self]
  have hg : getOwnH (ConjugateBase.set h c.selfId k v c.selfId) c.selfId k = some v :=
    getOwnH_set_same h c.selfId k v c.selfId o hself
  have hh' : hasOwnProperty (ConjugateBase.set h c.selfId k v c.selfId) c.selfId k = true := by
    simp [hasOwnProperty, hg]
  have hv' := get_of_getOwnH (r := .recv) hg
  simp [Conjugated.get, hh', hv', bounded_of_not_function hv]

/-- C8 witness: writing the object reference 77 over the auxiliary-owned
field "x" and reading it back yields the identical reference. -/
theorem C8_round_trip_witness :
    Conjugated.get (Conjugated.set heapRT compRT (.str "x") (.obj 77)) compRT (.str "x")
      = .obj 77 :=
  C8_round_trip heapRT compRT (.str "x") (.obj 77) (.mixinS 2) ⟨[], none⟩
    (by decide) (by decide) (by decide)

/-- C9 (confirmed): prototype-level resolution traverses the component
class's entire prototype chain.  For a key that is not an own property of
any component instance and not an own property of the primary class's
immediate prototype, but is supplied by an object further up that
prototype's chain (a member inherited from the component's superclass), the
existence check reports true and the read returns the inherited value,
rebound to the receiver. -/
theorem C9_prototype_chain (h : JsHeap) (c : Composite) (k : PropKey) (v : JsValue)
    (h1 : hasOwnProperty h c.selfId k = false)
    (h2 : ∀ m ∈ c.mixinIds, hasOwnProperty h m k = false)
    (h3 : hasOwnProperty h c.baseId k = false)
    (h4 : getOwnH h c.baseProtoId k = none)
    (h5 : ConjugateBase.has h c.baseProtoId k = true)
    (h6 : ConjugateBase.get h c.baseProtoId k .recv = v) :
    Conjugated.has h c k = true
    ∧ Conjugated.get h c k = ConjugateBase.bounded v .recv := by
  have hmix : firstHit (fun m => hasOwnProperty h m k) c.mixinIds.reverse = none := by
    rw [firstHit_eq_none_iff]
    intro x hx
    exact h2 x (List.mem_reverse.mp hx)
  constructor
  · simp [Conjugated.has, h5]
  · simp [Conjugated.get, h1, hmix, h3, h5, h6]

/-- C9 witness: the inherited-member statement applied to a concrete
composite whose primary prototype (object 3) owns nothing but inherits the
method "g" from its own prototype (object 5, standing for
EventTarget.prototype). -/
theorem C9_prototype_chain_witness :
    Conjugated.has heapIH compIH (.str "g") = true
    ∧ Conjugated.get heapIH compIH (.str "g")
      = ConjugateBase.bounded (.fn 9 (.str "q") none) .recv :=
  C9_prototype_chain heapIH compIH (.str "g") (.fn 9 (.str "q") none)
    (by decide) (by decide) (by decide) (by decide) (by decide) (by decide)

/-- C10 (confirmed): in the resolveProperty-based variant, a set operation
whose value is undefined is rejected with the TypeError "Value must be
provided for set operation." before any resolution walk — the result does
not depend on the heap or on the composite, so no write is ever performed
and undefined can never be stored through the composite's write operation. -/
theorem C10_undefined_write (h : JsHeap) (c2 : Composite2) (prop : PropKey)
    (r : BoundThis)
    (hk : isValidKey prop = true) :
    resolveProperty h c2 .set prop (some r) .undefined
      = .error "Value must be provided for set operation." := by
  simp [resolveProperty, hk]

/-- C10 witness: the undefined-write rejection applied to a concrete
composite of the second variant. -/
theorem C10_undefined_write_witness :
    resolveProperty heapRP compRP .set (.str "x") (some .recv) .undefined
      = .error "Value must be provided for set operation." :=
  C10_undefined_write heapRP compRP (.str "x") .recv (by decide)
